import Mathlib

/-!
Verification of the peerpoint signaling relay (src/server.js, second server
version, lines 94-198) and of the client-side WebRTC orchestration hook
(src/app/page.tsx, the useWebRTC hook with room-full support, lines 1242-1563).

Server model.  The relay's observable state is
  * the socket.io adapter's named rooms (`io.sockets.adapter.rooms`):
    a map from room id to the JS `Set` of sockets that joined it, and
  * the `activeUsers` map (socketId -> { roomId, userId }); since the stored
    userId always equals the socketId, we keep only the tracked roomId.

A JS `Set` is an insertion-ordered collection without duplicates, so a room
is modelled as a `List String` mutated only through `setAdd` (Set.add:
append if absent) and `setDelete` (Set.delete); `size` is the list length.

Each socket.io emit call is modelled as one `Emission`: the audience (the
recipients) paired with the event.  `socket.to(r).emit e` has audience
"members of r except the sender", `io.to(r).emit e` has audience "members of
r", and `socket.emit e` has audience "the socket itself".
-/

/-- JS `Set.add` on an insertion-ordered set: append if absent. -/
def setAdd (l : List String) (x : String) : List String :=
  if x ∈ l then l else l ++ [x]

/-- JS `Set.delete`: remove the element, keep order of the rest. -/
def setDelete (l : List String) (x : String) : List String :=
  l.filter (fun y => y ≠ x)

inductive SigKind where
  | offerKind
  | answerKind
  | iceKind
deriving DecidableEq, Repr

/-- An event the relay emits to clients (server.js second version). -/
inductive SEvent where
  | roomFull (message : String)
  | userJoined (userId : String)
  | userLeft (userId : String)
  | roomInfo (numUsers : Nat)
  | signal (kind : SigKind) (payload : String) (fromId : String)
deriving DecidableEq, Repr

/-- One emit call: the audience it is broadcast to, and the event. -/
abbrev Emission := List String × SEvent

/-- Relay state: adapter rooms plus the `activeUsers` tracking map. -/
structure ServerState where
  rooms : String → List String
  activeUsers : String → Option String

/-- The fresh relay: no rooms, no tracked users. -/
def initState : ServerState := ⟨fun _ => [], fun _ => none⟩

/-- The room-full message text (server.js line 105). -/
def roomFullMsg : String := "Room is full. Only 2 users allowed."

/-- Inside the join-room handler, leave the previous
room (if any, and if different from the target) and notify its remaining
members with user-left (server.js lines 109-115).  The guard
`previousRoom && previousRoom !== roomId` is a JS truthiness test: it fails
both when no room is tracked and when the tracked room id is the falsy
empty string, and the removal is skipped in either case. -/
def joinPrevStep (s : ServerState) (p roomId : String) : ServerState × List Emission :=
  match s.activeUsers p with
  | some pr =>
    if pr ≠ "" ∧ pr ≠ roomId then
      (⟨Function.update s.rooms pr (setDelete (s.rooms pr) p), s.activeUsers⟩,
       [(setDelete (s.rooms pr) p, SEvent.userLeft p)])
    else (s, [])
  | none => (s, [])

/-- The join-room handler (server.js lines 98-132).  Reads the target room's
size; if it is ≥ 2 the join is rejected with room-full (emitted to the
requester only) before any mutation.  Otherwise the previous room (if any)
is left, the socket joins the target room, `activeUsers` is updated, the
other members get user-joined, and the joiner gets room-info with the
occupancy measured after the join. -/
def joinRoom (s : ServerState) (p roomId : String) : ServerState × List Emission :=
  if 2 ≤ (s.rooms roomId).length then
    (s, [([p], SEvent.roomFull roomFullMsg)])
  else
    let s1 := (joinPrevStep s p roomId).1
    let s2 : ServerState :=
      ⟨Function.update s1.rooms roomId (setAdd (s1.rooms roomId) p),
       Function.update s1.activeUsers p (some roomId)⟩
    (s2, (joinPrevStep s p roomId).2 ++
      [(setDelete (s2.rooms roomId) p, SEvent.userJoined p),
       ([p], SEvent.roomInfo (s2.rooms roomId).length)])

/-- The leave-room handler (server.js lines 160-172).  Unconditionally leaves
the given room, deletes the participant's `activeUsers` entry, emits
user-left to the room (sender excluded) and broadcasts room-info with the
room's remaining occupancy to the whole room. -/
def leaveRoom (s : ServerState) (p roomId : String) : ServerState × List Emission :=
  let s1 : ServerState :=
    ⟨Function.update s.rooms roomId (setDelete (s.rooms roomId) p),
     Function.update s.activeUsers p none⟩
  (s1, [(setDelete (s1.rooms roomId) p, SEvent.userLeft p),
        (s1.rooms roomId, SEvent.roomInfo (s1.rooms roomId).length)])

/-- The offer / answer / ice-candidate handlers (server.js lines 135-157).
All three forward the payload, tagged from=sender, to the members of the
named room except the sender (`socket.to(roomId).emit`); no membership check
on the sender, no state change, no error path. -/
def relaySignal (s : ServerState) (sender : String) (k : SigKind)
    (roomId payload : String) : ServerState × List Emission :=
  (s, [(setDelete (s.rooms roomId) sender, SEvent.signal k payload sender)])

/-- The disconnect handler (server.js lines 175-197).  The transport removes
the socket from every adapter room; then, if the participant is tracked, its
entry is deleted and the tracked room gets user-left plus a room-info
broadcast. -/
def disconnect (s : ServerState) (p : String) : ServerState × List Emission :=
  let s0 : ServerState := ⟨fun r => setDelete (s.rooms r) p, s.activeUsers⟩
  match s0.activeUsers p with
  | none => (s0, [])
  | some roomId =>
    let s1 : ServerState := ⟨s0.rooms, Function.update s0.activeUsers p none⟩
    (s1, [(setDelete (s1.rooms roomId) p, SEvent.userLeft p),
          (s1.rooms roomId, SEvent.roomInfo (s1.rooms roomId).length)])

/-- A participant `m` receives event `ev` from an emission list when some
emit call in it has `m` in its audience and carries `ev`. -/
def delivered (ems : List Emission) (m : String) (ev : SEvent) : Prop :=
  ∃ pr ∈ ems, m ∈ pr.1 ∧ pr.2 = ev

instance (ems : List Emission) (m : String) (ev : SEvent) :
    Decidable (delivered ems m ev) := by
  unfold delivered; infer_instance

/-- One client-to-relay request, as dispatched by the connection handler. -/
inductive ServerOp where
  | joinOp (p roomId : String)
  | leaveOp (p roomId : String)
  | signalOp (p : String) (k : SigKind) (roomId payload : String)
  | discOp (p : String)

/-- Serial execution of one request against the relay state. -/
def serverStep (s : ServerState) : ServerOp → ServerState × List Emission
  | .joinOp p r => joinRoom s p r
  | .leaveOp p r => leaveRoom s p r
  | .signalOp p k r payload => relaySignal s p k r payload
  | .discOp p => disconnect s p

/-- The relay state after a serial sequence of requests, from the fresh
relay. -/
def runServer (ops : List ServerOp) : ServerState :=
  ops.foldl (fun s op => (serverStep s op).1) initState

/-- A concrete relay state: a and b are members of room R1 (and of no other
room), both tracked in R1; every other room is empty. -/
def twoInR1 : ServerState :=
  ⟨Function.update (fun _ => []) "R1" ["a", "b"],
   Function.update (Function.update (fun _ => none) "a" (some "R1")) "b" (some "R1")⟩

/-!
Client model (the useWebRTC hook, src/app/page.tsx lines 1242-1563).

The hook's observable state is the `remoteUsers` React state and the
`peerConnectionRef` ref.  The RTCPeerConnection itself is a browser API, not
part of this repository; its operations used by the hook are modelled below
from the spec's description of the negotiation session.  Descriptions,
candidates and SDP payloads are opaque strings.
-/

/-- Modelled from the spec: the negotiation session (RTCPeerConnection) as
the hook observes it — the remote description, the local description, and
the candidates it has accepted.  The session itself is a browser API and is
not in src/. -/
structure PeerSession where
  remoteDesc : Option String
  localDesc : Option String
  candidates : List String
deriving DecidableEq, Repr

/-- Modelled from the spec: `createOffer` produces an opaque description
blob; the relay and the hook never inspect it. -/
def createOffer (_ps : PeerSession) : String := "offer-sdp"

/-- Modelled from the spec: `createAnswer` produces an opaque description
blob in response to the current remote description. -/
def createAnswer (_ps : PeerSession) : String := "answer-sdp"

/-- Modelled from the spec (§4.2/§7): `addIceCandidate` on a session with no
remote description set rejects (reject-then-discard policy — the candidate
is lost); with a remote description it records the candidate. -/
def addIceCandidate (ps : PeerSession) (c : String) : Except String PeerSession :=
  match ps.remoteDesc with
  | none => .error "InvalidStateError"
  | some _ => .ok { ps with candidates := ps.candidates ++ [c] }

/-- The hook's observable state: the `remoteUsers` list and the peer session
ref (`none` before startCall and after cleanup). -/
structure ClientState where
  remoteUsers : List String
  pc : Option PeerSession
deriving DecidableEq, Repr

/-- The hook's initial state: no remote users, no peer session. -/
def initClientState : ClientState := ⟨[], none⟩

/-- A message the hook emits to the relay socket. -/
inductive CEmission where
  | offerMsg (roomId payload : String)
  | answerMsg (roomId payload : String)
  | iceMsg (roomId payload : String)
deriving DecidableEq, Repr

/-- The user-joined handler (page.tsx lines 1317-1325) appends the id to
`remoteUsers` unless it is already present. -/
def onUserJoined (cs : ClientState) (userId : String) : ClientState :=
  { cs with remoteUsers :=
      if userId ∈ cs.remoteUsers then cs.remoteUsers
      else cs.remoteUsers ++ [userId] }

/-- The user-left handler (page.tsx lines 1327-1331) filters the id out of
`remoteUsers`. -/
def onUserLeft (cs : ClientState) (userId : String) : ClientState :=
  { cs with remoteUsers := cs.remoteUsers.filter (fun id => id ≠ userId) }

/-- The offer handler (page.tsx lines 1337-1354).  Returns untouched when no
peer session exists; otherwise sets the received description as the remote
description, creates an answer, sets it as the local description and emits
the answer to the room. -/
def onOffer (cs : ClientState) (offer roomId : String) : ClientState × List CEmission :=
  match cs.pc with
  | none => (cs, [])
  | some ps =>
    let ps1 := { ps with remoteDesc := some offer }
    let ans := createAnswer ps1
    let ps2 := { ps1 with localDesc := some ans }
    ({ cs with pc := some ps2 }, [CEmission.answerMsg roomId ans])

/-- The answer handler (page.tsx lines 1356-1365).  Returns untouched when no
peer session exists; otherwise sets the received description as the remote
description. -/
def onAnswer (cs : ClientState) (answer : String) : ClientState × List CEmission :=
  match cs.pc with
  | none => (cs, [])
  | some ps =>
    ({ cs with pc := some { ps with remoteDesc := some answer } }, [])

/-- The ice-candidate handler (page.tsx lines 1367-1376).  Returns untouched
when no peer session exists; otherwise calls `addIceCandidate` directly,
catching (and merely logging) any rejection — there is no queueing. -/
def onIceCandidate (cs : ClientState) (c : String) : ClientState × List CEmission :=
  match cs.pc with
  | none => (cs, [])
  | some ps =>
    match addIceCandidate ps c with
    | .ok ps1 => ({ cs with pc := some ps1 }, [])
    | .error _ => (cs, [])

/-- The body of the timer scheduled by startCall (page.tsx lines 1472-1489).
The setTimeout callback closes over the `remoteUsers` value of the render
that created this startCall instance, so `captured` is the startCall-time
snapshot of the remote-users list — a stale closure, not the list the hook
holds when the timer fires; only `peerConnectionRef.current` (`pcNow`) is
read live at fire time.  If the snapshot is empty and a session exists the
callback creates an offer, sets it as the local description and emits it to
the room; otherwise it does nothing. -/
def startCallTimer (captured : List String) (pcNow : Option PeerSession)
    (roomId : String) : Option PeerSession × List CEmission :=
  match pcNow with
  | some ps =>
    if captured.length = 0 then
      let off := createOffer ps
      (some { ps with localDesc := some off }, [CEmission.offerMsg roomId off])
    else (pcNow, [])
  | none => (pcNow, [])

/-- A membership event delivered to the hook by the relay. -/
inductive RUEvent where
  | joined (id : String)
  | left (id : String)

/-- Folding the user-joined / user-left handlers over an event sequence. -/
def ruStep (cs : ClientState) : RUEvent → ClientState
  | .joined id => onUserJoined cs id
  | .left id => onUserLeft cs id

/-- The hook state after a sequence of membership events from the initial
state. -/
def ruRun (evs : List RUEvent) : ClientState :=
  evs.foldl ruStep initClientState

/-! Helper lemmas about the set operations and the join sub-steps. -/

lemma length_setAdd_le (l : List String) (x : String) :
    (setAdd l x).length ≤ l.length + 1 := by
  unfold setAdd
  by_cases h : x ∈ l
  · rw [if_pos h]; omega
  · rw [if_neg h]; simp

lemma mem_setAdd_self (l : List String) (x : String) : x ∈ setAdd l x := by
  unfold setAdd
  by_cases h : x ∈ l
  · rw [if_pos h]; exact h
  · rw [if_neg h]; simp

lemma length_setDelete_le (l : List String) (x : String) :
    (setDelete l x).length ≤ l.length :=
  List.length_filter_le _ _

lemma mem_setDelete (l : List String) (x y : String) :
    y ∈ setDelete l x ↔ y ∈ l ∧ y ≠ x := by
  unfold setDelete
  simp [List.mem_filter]

lemma setDelete_idem (l : List String) (x : String) :
    setDelete (setDelete l x) x = l.filter (fun y => y ≠ x) := by
  unfold setDelete
  rw [List.filter_filter]
  simp

lemma not_mem_setDelete_self (l : List String) (x : String) :
    x ∉ setDelete l x := by
  rw [mem_setDelete]; simp

lemma joinPrevStep_rooms_target (s : ServerState) (p roomId : String) :
    (joinPrevStep s p roomId).1.rooms roomId = s.rooms roomId := by
  unfold joinPrevStep
  cases h : s.activeUsers p with
  | none => rfl
  | some pr =>
    dsimp only
    by_cases hpr : pr ≠ "" ∧ pr ≠ roomId
    · rw [if_pos hpr]
      exact Function.update_noteq (Ne.symm hpr.2) _ _
    · rw [if_neg hpr]

lemma joinPrevStep_rooms_length_le (s : ServerState) (p roomId q : String) :
    ((joinPrevStep s p roomId).1.rooms q).length ≤ (s.rooms q).length := by
  unfold joinPrevStep
  cases h : s.activeUsers p with
  | none => exact le_refl _
  | some pr =>
    dsimp only
    by_cases hpr : pr ≠ "" ∧ pr ≠ roomId
    · rw [if_pos hpr]
      dsimp only
      by_cases hq : q = pr
      · subst hq
        rw [Function.update_same]
        exact length_setDelete_le _ _
      · rw [Function.update_noteq hq]
    · rw [if_neg hpr]

lemma delivered_intro {ems : List Emission} {aud : List String} {m : String}
    {ev : SEvent} (h : (aud, ev) ∈ ems) (hm : m ∈ aud) : delivered ems m ev :=
  ⟨(aud, ev), h, hm, rfl⟩

lemma delivered_relaySignal_iff (s : ServerState) (sender : String) (k : SigKind)
    (roomId payload m : String) (ev : SEvent) :
    delivered (relaySignal s sender k roomId payload).2 m ev ↔
      (m ∈ s.rooms roomId ∧ m ≠ sender ∧ ev = SEvent.signal k payload sender) := by
  unfold relaySignal delivered
  simp only [List.mem_singleton, exists_eq_left, mem_setDelete]
  constructor
  · rintro ⟨⟨hm, hne⟩, hev⟩; exact ⟨hm, hne, hev.symm⟩
  · rintro ⟨hm, hne, hev⟩; exact ⟨⟨hm, hne⟩, hev.symm⟩

lemma leaveRoom_rooms_target (s : ServerState) (p roomId : String) :
    (leaveRoom s p roomId).1.rooms roomId = setDelete (s.rooms roomId) p := by
  unfold leaveRoom
  exact Function.update_same _ _ _

lemma delivered_leaveRoom_userLeft (s : ServerState) (p roomId m : String)
    (hm : m ∈ s.rooms roomId) (hne : m ≠ p) :
    delivered (leaveRoom s p roomId).2 m (SEvent.userLeft p) := by
  unfold leaveRoom delivered
  dsimp only
  refine ⟨_, List.mem_cons_self _ _, ?_, rfl⟩
  rw [Function.update_same]
  exact (mem_setDelete _ _ _).mpr ⟨(mem_setDelete _ _ _).mpr ⟨hm, hne⟩, hne⟩

/-- The per-room capacity invariant: every room holds at most two members. -/
def roomCap (s : ServerState) : Prop := ∀ r, (s.rooms r).length ≤ 2

lemma roomCap_joinRoom (s : ServerState) (p roomId : String) (hs : roomCap s) :
    roomCap (joinRoom s p roomId).1 := by
  unfold joinRoom
  by_cases hcap : 2 ≤ (s.rooms roomId).length
  · rw [if_pos hcap]; exact hs
  · rw [if_neg hcap]
    intro q
    dsimp only
    by_cases hq : q = roomId
    · subst hq
      rw [Function.update_same]
      have h1 : ((joinPrevStep s p q).1.rooms q).length ≤ 1 := by
        rw [joinPrevStep_rooms_target]
        omega
      have h2 := length_setAdd_le ((joinPrevStep s p q).1.rooms q) p
      omega
    · rw [Function.update_noteq hq]
      exact le_trans (joinPrevStep_rooms_length_le s p roomId q) (hs q)

lemma roomCap_leaveRoom (s : ServerState) (p roomId : String) (hs : roomCap s) :
    roomCap (leaveRoom s p roomId).1 := by
  intro q
  unfold leaveRoom
  dsimp only
  by_cases hq : q = roomId
  · subst hq
    rw [Function.update_same]
    exact le_trans (length_setDelete_le _ _) (hs q)
  · rw [Function.update_noteq hq]
    exact hs q

lemma disconnect_rooms (s : ServerState) (p q : String) :
    (disconnect s p).1.rooms q = setDelete (s.rooms q) p := by
  unfold disconnect
  cases h : s.activeUsers p <;> simp [h]

lemma roomCap_disconnect (s : ServerState) (p : String) (hs : roomCap s) :
    roomCap (disconnect s p).1 := by
  intro q
  rw [disconnect_rooms]
  exact le_trans (length_setDelete_le _ _) (hs q)

/-! Claim theorems. -/

/-- C1: a join-room request on a room already holding two or more distinct
members (the requester not among them) is rejected: the relay replies
room-full to the requester only and the whole state — the target room, every
other room, and the `activeUsers` tracking map — is returned unchanged. -/
theorem join_room_full_no_state_change (s : ServerState) (p roomId : String)
    (hcap : 2 ≤ (s.rooms roomId).length) (_hnm : p ∉ s.rooms roomId) :
    joinRoom s p roomId = (s, [([p], SEvent.roomFull roomFullMsg)]) := by
  unfold joinRoom
  rw [if_pos hcap]

/-- Witness for C1: a concrete full room rejects a third joiner. -/
theorem join_room_full_no_state_change_witness :
    2 ≤ ((runServer [.joinOp "a" "R", .joinOp "b" "R"]).rooms "R").length ∧
    "c" ∉ (runServer [.joinOp "a" "R", .joinOp "b" "R"]).rooms "R" ∧
    joinRoom (runServer [.joinOp "a" "R", .joinOp "b" "R"]) "c" "R" =
      (runServer [.joinOp "a" "R", .joinOp "b" "R"],
       [(["c"], SEvent.roomFull roomFullMsg)]) :=
  ⟨by decide, by decide,
   join_room_full_no_state_change _ "c" "R" (by decide) (by decide)⟩

/-- C2: over every serial sequence of relay requests (join-room, leave-room,
offer/answer/ice-candidate, disconnect) from the fresh relay, every room's
occupancy stays at most 2. -/
theorem relay_occupancy_at_most_two (ops : List ServerOp) (r : String) :
    ((runServer ops).rooms r).length ≤ 2 := by
  suffices h : ∀ s : ServerState, roomCap s →
      roomCap (ops.foldl (fun s op => (serverStep s op).1) s) by
    exact h initState (fun q => by simp [initState]) r
  induction ops with
  | nil => intro s hs; exact hs
  | cons op ops ih =>
    intro s hs
    apply ih
    cases op with
    | joinOp p r => exact roomCap_joinRoom _ _ _ hs
    | leaveOp p r => exact roomCap_leaveRoom _ _ _ hs
    | signalOp p k r payload => exact hs
    | discOp p => exact roomCap_disconnect _ _ hs

/-- C3: an offer/answer/ice-candidate envelope leaves the relay state
unchanged and is delivered, with the payload unchanged and tagged
from=sender, to exactly the current members of the named room other than the
sender; in particular it never reaches the sender, and when the room has no
other members it reaches no one (the handler is total — no error path). -/
theorem relay_signal_delivery (s : ServerState) (sender : String) (k : SigKind)
    (roomId payload : String) :
    (relaySignal s sender k roomId payload).1 = s ∧
    ∀ m ev, delivered (relaySignal s sender k roomId payload).2 m ev ↔
      (m ∈ s.rooms roomId ∧ m ≠ sender ∧ ev = SEvent.signal k payload sender) :=
  ⟨rfl, fun m ev => delivered_relaySignal_iff s sender k roomId payload m ev⟩

/-- Witness for C3 at a concrete state: with a and b in room R, an offer
from a reaches b and does not reach a. -/
theorem relay_signal_delivery_witness :
    delivered
      (relaySignal (runServer [.joinOp "a" "R", .joinOp "b" "R"]) "a"
        .offerKind "R" "sdp").2 "b" (SEvent.signal .offerKind "sdp" "a") ∧
    ¬ delivered
      (relaySignal (runServer [.joinOp "a" "R", .joinOp "b" "R"]) "a"
        .offerKind "R" "sdp").2 "a" (SEvent.signal .offerKind "sdp" "a") :=
  ⟨((relay_signal_delivery _ "a" .offerKind "R" "sdp").2 "b" _).mpr
      ⟨by decide, by decide, rfl⟩,
   fun h =>
    (((relay_signal_delivery _ "a" .offerKind "R" "sdp").2 "a" _).mp h).2.1 rfl⟩

/-- C4 counterexample: in the concrete run where a and b join room R and a
then leaves R, an offer subsequently sent by a naming R is still delivered
to the remaining member b — refuting the claim that no envelope from a
departed participant reaches the remaining members. -/
theorem relay_after_leave_cex :
    delivered
      (relaySignal (leaveRoom (runServer [.joinOp "a" "R", .joinOp "b" "R"]) "a" "R").1
        "a" .offerKind "R" "sdp").2 "b" (SEvent.signal .offerKind "sdp" "a") := by
  decide

/-- C4 amended: after a participant leaves a room, an envelope it sends
naming that room is still delivered to every remaining member of the room,
tagged from=sender — the relay forwards by room name alone and never checks
that the sender is a member. -/
theorem relay_after_leave_still_delivers (s : ServerState) (a roomId : String)
    (k : SigKind) (payload m : String)
    (hm : m ∈ (leaveRoom s a roomId).1.rooms roomId) :
    delivered (relaySignal (leaveRoom s a roomId).1 a k roomId payload).2 m
      (SEvent.signal k payload a) := by
  have hm' := hm
  rw [leaveRoom_rooms_target, mem_setDelete] at hm'
  exact (delivered_relaySignal_iff _ a k roomId payload m _).mpr ⟨hm, hm'.2, rfl⟩

/-- Witness for the amended C4 at the concrete run of the counterexample. -/
theorem relay_after_leave_still_delivers_witness :
    "b" ∈ (leaveRoom (runServer [.joinOp "a" "R", .joinOp "b" "R"]) "a" "R").1.rooms "R" ∧
    delivered
      (relaySignal (leaveRoom (runServer [.joinOp "a" "R", .joinOp "b" "R"]) "a" "R").1
        "a" .answerKind "R" "sdp2").2 "b" (SEvent.signal .answerKind "sdp2" "a") :=
  ⟨by decide,
   relay_after_leave_still_delivers _ "a" "R" .answerKind "sdp2" "b" (by decide)⟩

/-- C5 counterexample: leaving a room the participant never joined is
observable — with a and b in room R, a leave-room request from the outsider
c makes a (a member of R) receive user-left{c}. -/
theorem leave_never_joined_cex :
    delivered (leaveRoom (runServer [.joinOp "a" "R", .joinOp "b" "R"]) "c" "R").2
      "a" (SEvent.userLeft "c") := by
  decide

/-- C5 amended: leave is idempotent on the relay state, and a repeated leave
returns the identical state and re-emits the identical notifications (so the
observable emissions are repeated, not absent); moreover every leave call —
including one for a room the participant never joined — emits user-left to
the room's current members. -/
theorem leave_state_idempotent_but_reemits (s : ServerState) (p roomId : String) :
    leaveRoom (leaveRoom s p roomId).1 p roomId = leaveRoom s p roomId ∧
    ∀ m ∈ s.rooms roomId, m ≠ p →
      delivered (leaveRoom s p roomId).2 m (SEvent.userLeft p) := by
  constructor
  · unfold leaveRoom setDelete
    dsimp only
    simp only [Function.update_same, Function.update_idem, List.filter_filter]
    simp
  · exact fun m hm hne => delivered_leaveRoom_userLeft s p roomId m hm hne

/-- Witness for the amended C5 at a concrete two-member room. -/
theorem leave_state_idempotent_but_reemits_witness :
    (leaveRoom (leaveRoom (runServer [.joinOp "a" "R", .joinOp "b" "R"]) "a" "R").1 "a" "R" =
      leaveRoom (runServer [.joinOp "a" "R", .joinOp "b" "R"]) "a" "R") ∧
    delivered (leaveRoom (runServer [.joinOp "a" "R", .joinOp "b" "R"]) "a" "R").2
      "b" (SEvent.userLeft "a") :=
  ⟨(leave_state_idempotent_but_reemits (runServer [.joinOp "a" "R", .joinOp "b" "R"]) "a" "R").1,
   (leave_state_idempotent_but_reemits (runServer [.joinOp "a" "R", .joinOp "b" "R"]) "a" "R").2
     "b" (by decide) (by decide)⟩

/-- The join-room handler on a participant tracked in a different,
non-target room, with the target room under capacity: the shape of the
resulting state and emissions (server.js lines 98-132, success path with
previous-room removal). -/
lemma joinRoom_switch_eq (s : ServerState) (a r1 r2 : String)
    (htrack : s.activeUsers a = some r1) (hne0 : r1 ≠ "") (hne : r1 ≠ r2)
    (hcap : ¬ 2 ≤ (s.rooms r2).length) :
    joinRoom s a r2 =
      (⟨Function.update (Function.update s.rooms r1 (setDelete (s.rooms r1) a)) r2
          (setAdd (s.rooms r2) a),
        Function.update s.activeUsers a (some r2)⟩,
       [(setDelete (s.rooms r1) a, SEvent.userLeft a),
        (setDelete (setAdd (s.rooms r2) a) a, SEvent.userJoined a),
        ([a], SEvent.roomInfo (setAdd (s.rooms r2) a).length)]) := by
  unfold joinRoom joinPrevStep
  rw [if_neg hcap, htrack]
  dsimp only
  rw [if_pos (And.intro hne0 hne)]
  dsimp only
  rw [Function.update_noteq (Ne.symm hne), Function.update_same]
  rfl

/-- C6 counterexample: with a and b in room R1 and a switching to the empty
room R2, the remaining member b does not receive the room-info occupancy
broadcast that an explicit leave of R1 would send it. -/
theorem switch_room_notification_cex :
    ¬ delivered (joinRoom (runServer [.joinOp "a" "R1", .joinOp "b" "R1"]) "a" "R2").2
        "b" (SEvent.roomInfo 1) ∧
    delivered (leaveRoom (runServer [.joinOp "a" "R1", .joinOp "b" "R1"]) "a" "R1").2
        "b" (SEvent.roomInfo 1) := by
  decide

/-- C6 amended: when a participant tracked in room R1 — with a non-empty
room id, since the handler's JS truthiness guard skips the removal for the
falsy empty string — (and a member of no other room) joins a different room
R2 that is under capacity, the members remaining in R1 receive the same
user-left notification an explicit leave would send, but no room-info
occupancy broadcast (which only an explicit leave sends); afterwards the
participant is a member of R2 and of no other room. -/
theorem switch_room_removal (s : ServerState) (a r1 r2 : String)
    (htrack : s.activeUsers a = some r1) (hne0 : r1 ≠ "") (hne : r1 ≠ r2)
    (hcap : ¬ 2 ≤ (s.rooms r2).length)
    (honly : ∀ r, a ∈ s.rooms r → r = r1) :
    (∀ m ∈ setDelete (s.rooms r1) a,
      delivered (joinRoom s a r2).2 m (SEvent.userLeft a) ∧
      delivered (leaveRoom s a r1).2 m (SEvent.userLeft a) ∧
      ∀ n, ¬ delivered (joinRoom s a r2).2 m (SEvent.roomInfo n)) ∧
    a ∈ (joinRoom s a r2).1.rooms r2 ∧
    (∀ r, a ∈ (joinRoom s a r2).1.rooms r → r = r2) := by
  rw [joinRoom_switch_eq s a r1 r2 htrack hne0 hne hcap]
  refine ⟨fun m hm => ?_, ?_, fun r hr => ?_⟩
  · have hmem := (mem_setDelete _ _ _).mp hm
    refine ⟨delivered_intro (List.mem_cons_self _ _) hm, ?_, ?_⟩
    · exact delivered_leaveRoom_userLeft s a r1 m hmem.1 hmem.2
    · intro n hd
      unfold delivered at hd
      obtain ⟨pr, hpr, hmpr, hev⟩ := hd
      simp only [List.mem_cons, List.not_mem_nil, or_false] at hpr
      rcases hpr with h1 | h1 | h1
      · rw [h1] at hev; cases hev
      · rw [h1] at hev; cases hev
      · rw [h1] at hmpr hev
        cases hev
        exact hmem.2 (List.mem_singleton.mp hmpr)
  · dsimp only
    rw [Function.update_same]
    exact mem_setAdd_self _ _
  · dsimp only at hr
    by_cases h2 : r = r2
    · exact h2
    · rw [Function.update_noteq h2] at hr
      by_cases h1 : r = r1
      · subst h1
        rw [Function.update_same] at hr
        exact absurd ((mem_setDelete _ _ _).mp hr).2 (by simp)
      · rw [Function.update_noteq h1] at hr
        exact absurd (honly r hr) h1

/-- Witness for the amended C6 at the concrete state `twoInR1`. -/
theorem switch_room_removal_witness :
    delivered (joinRoom twoInR1 "a" "R2").2 "b" (SEvent.userLeft "a") ∧
    "a" ∈ (joinRoom twoInR1 "a" "R2").1.rooms "R2" := by
  have honly : ∀ r, "a" ∈ twoInR1.rooms r → r = "R1" := by
    intro r hr
    by_cases h : r = "R1"
    · exact h
    · exfalso
      unfold twoInR1 at hr
      dsimp only at hr
      rw [Function.update_noteq h] at hr
      cases hr
  exact
    ⟨((switch_room_removal twoInR1 "a" "R1" "R2" (by decide) (by decide) (by decide)
        (by decide) honly).1 "b" (by decide)).1,
     (switch_room_removal twoInR1 "a" "R1" "R2" (by decide) (by decide) (by decide)
        (by decide) honly).2.1⟩

/-- C7 counterexample: the timer's closure is stale.  Concretely, startCall
runs with no remote users and creates a session; during the fixed delay a
user-joined for b arrives, so at the moment the timer fires the hook
observes remoteUsers = ["b"]; yet the callback — which closed over the
startCall-time snapshot of remoteUsers, reading only the session ref live —
still sends the offer, refuting "if it observes at least one remote
participant at that moment, it does not send an offer". -/
theorem start_call_timer_stale_cex :
    (onUserJoined ⟨[], some ⟨none, none, []⟩⟩ "b").remoteUsers = ["b"] ∧
    (startCallTimer (⟨[], some ⟨none, none, []⟩⟩ : ClientState).remoteUsers
        (onUserJoined ⟨[], some ⟨none, none, []⟩⟩ "b").pc "R").2 =
      [CEmission.offerMsg "R" "offer-sdp"] :=
  ⟨rfl, rfl⟩

/-- C7 amended: the timer's offer decision uses the startCall-time snapshot
of the remote-users list (the value its closure captured), not the list the
hook holds at the moment it fires: if the snapshot is empty and the peer
session still exists at fire time, it creates an offer, sets it as the local
description and relays it to the room; if the snapshot is non-empty it sends
nothing. -/
theorem start_call_timer_snapshot_offer (captured : List String)
    (pcNow : Option PeerSession) (roomId : String) :
    (∀ ps, pcNow = some ps → captured = [] →
      startCallTimer captured pcNow roomId =
        (some { ps with localDesc := some (createOffer ps) },
         [CEmission.offerMsg roomId (createOffer ps)])) ∧
    (captured ≠ [] → startCallTimer captured pcNow roomId = (pcNow, [])) := by
  constructor
  · intro ps hps hc
    unfold startCallTimer
    rw [hps]
    dsimp only
    rw [if_pos (by rw [hc]; rfl)]
  · intro hc
    unfold startCallTimer
    cases hps : pcNow with
    | none => rfl
    | some ps =>
      dsimp only
      rw [if_neg (fun h => hc (List.length_eq_zero.mp h))]

/-- Witness for the amended C7: an empty snapshot yields an offer, a
non-empty snapshot yields nothing. -/
theorem start_call_timer_snapshot_offer_witness :
    startCallTimer [] (some ⟨none, none, []⟩) "R" =
      (some ⟨none, some "offer-sdp", []⟩, [CEmission.offerMsg "R" "offer-sdp"]) ∧
    startCallTimer ["x"] (some ⟨none, none, []⟩) "R" =
      (some ⟨none, none, []⟩, []) :=
  ⟨(start_call_timer_snapshot_offer [] (some ⟨none, none, []⟩) "R").1 _ rfl rfl,
   (start_call_timer_snapshot_offer ["x"] (some ⟨none, none, []⟩) "R").2 (by decide)⟩

/-- C8 counterexample: with a peer session that has no remote description,
an arriving ice-candidate leaves the hook state exactly as it was (nothing
is queued anywhere), and after an offer later sets the remote description
the session's accepted-candidate list is still empty — the candidate was
discarded, not applied. -/
theorem ice_before_remote_desc_cex :
    onIceCandidate ⟨[], some ⟨none, none, []⟩⟩ "cand" =
      (⟨[], some ⟨none, none, []⟩⟩, []) ∧
    (onOffer (onIceCandidate ⟨[], some ⟨none, none, []⟩⟩ "cand").1 "sdp" "R").1.pc =
      some ⟨some "sdp", some "answer-sdp", []⟩ :=
  ⟨rfl, rfl⟩

/-- C8 amended: an ice-candidate arriving while the peer session exists but
before any remote description is set is handed straight to the session,
whose add operation rejects it; the handler catches and logs the rejection
and the candidate is discarded — the hook state is unchanged, nothing is
queued, and the candidate is never applied later. -/
theorem ice_before_remote_desc_discarded (cs : ClientState) (ps : PeerSession)
    (c : String) (hps : cs.pc = some ps) (hrd : ps.remoteDesc = none) :
    onIceCandidate cs c = (cs, []) := by
  unfold onIceCandidate addIceCandidate
  rw [hps]
  dsimp only
  rw [hrd]

/-- Witness for the amended C8 on a concrete pre-negotiation session. -/
theorem ice_before_remote_desc_discarded_witness :
    onIceCandidate ⟨["x"], some ⟨none, some "offer-sdp", []⟩⟩ "c1" =
      (⟨["x"], some ⟨none, some "offer-sdp", []⟩⟩, []) :=
  ice_before_remote_desc_discarded _ ⟨none, some "offer-sdp", []⟩ "c1" rfl rfl

/-- C9: over every sequence of user-joined and user-left events from the
initial hook state — including repeated user-joined events for an id already
present — the observed `remoteUsers` list never contains a duplicate id. -/
theorem remote_users_nodup (evs : List RUEvent) :
    ((ruRun evs).remoteUsers).Nodup := by
  suffices h : ∀ cs : ClientState, cs.remoteUsers.Nodup →
      ((evs.foldl ruStep cs).remoteUsers).Nodup by
    exact h initClientState (by simp [initClientState])
  induction evs with
  | nil => intro cs h; exact h
  | cons e evs ih =>
    intro cs h
    apply ih
    cases e with
    | joined id =>
      unfold ruStep onUserJoined
      dsimp only
      by_cases hid : id ∈ cs.remoteUsers
      · rw [if_pos hid]; exact h
      · rw [if_neg hid]
        simp only [List.nodup_append, List.nodup_cons, List.not_mem_nil,
          not_false_iff, List.nodup_nil, and_true, true_and]
        refine ⟨h, ?_⟩
        intro x hx hx1
        rw [List.mem_singleton] at hx1
        exact hid (hx1 ▸ hx)
    | left id =>
      unfold ruStep onUserLeft
      exact h.filter _

/-- C10: an offer, answer, or ice-candidate envelope received while no peer
session exists is silently discarded: the hook state is unchanged, no
description is applied, and nothing (in particular no answer) is sent to the
relay. -/
theorem no_session_envelopes_discarded (cs : ClientState) (hpc : cs.pc = none) :
    (∀ offer roomId, onOffer cs offer roomId = (cs, [])) ∧
    (∀ answer, onAnswer cs answer = (cs, [])) ∧
    (∀ c, onIceCandidate cs c = (cs, [])) := by
  refine ⟨fun offer roomId => ?_, fun answer => ?_, fun c => ?_⟩
  · unfold onOffer
    rw [hpc]
  · unfold onAnswer
    rw [hpc]
  · unfold onIceCandidate
    rw [hpc]

/-- Witness for C10 at a concrete state with remote users but no session. -/
theorem no_session_envelopes_discarded_witness :
    onOffer ⟨["x"], none⟩ "sdp" "R" = (⟨["x"], none⟩, []) ∧
    onAnswer ⟨["x"], none⟩ "sdp" = (⟨["x"], none⟩, []) ∧
    onIceCandidate ⟨["x"], none⟩ "c" = (⟨["x"], none⟩, []) :=
  ⟨(no_session_envelopes_discarded ⟨["x"], none⟩ rfl).1 "sdp" "R",
   (no_session_envelopes_discarded ⟨["x"], none⟩ rfl).2.1 "sdp",
   (no_session_envelopes_discarded ⟨["x"], none⟩ rfl).2.2 "c"⟩

example :
    (joinRoom (joinRoom initState "a" "R").1 "b" "R").1.rooms "R" = ["a", "b"] := by
  decide
example :
    (joinRoom (runServer [.joinOp "a" "R", .joinOp "b" "R"]) "c" "R").2 =
      [(["c"], SEvent.roomFull roomFullMsg)] := by decide
example :
    (leaveRoom (runServer [.joinOp "a" "R", .joinOp "b" "R"]) "a" "R").2 =
      [(["b"], SEvent.userLeft "a"), (["b"], SEvent.roomInfo 1)] := by decide
